import Mathlib

/-!
Verification of the ZATCA Phase-1 QR engine (`backend/zatca_qr.py`).

The Python module is shallowly embedded: strings are Lean `String`s,
byte buffers are `List Nat` with every element `< 256`, exceptions
become `Option`/`Except`.  The library calls the module relies on
(`str.strip`, `re.sub`, `str.isdigit`, `float`, `datetime.fromisoformat`,
`base64.b64encode`/`b64decode`, `str.encode('utf-8')`/`bytes.decode('utf-8')`)
are modelled explicitly next to the functions that use them.
-/

namespace Zatca

/-- Models the whitespace class used by `str.strip()` and the regex `\s`.
Python also treats further Unicode space code points as whitespace; only
the ASCII ones occur in this development. -/
def isPySpace (c : Char) : Bool :=
  c = ' ' || c = '\t' || c = '\n' || c = '\r' || c = '\x0b' || c = '\x0c'

/-- Models `str.strip()` on a character list: drop whitespace from both ends. -/
def pyStripList (l : List Char) : List Char :=
  ((l.dropWhile isPySpace).reverse.dropWhile isPySpace).reverse

/-- Models `str.strip()`. -/
def pyStrip (s : String) : String := ⟨pyStripList s.data⟩

/-- Models `re.sub(r'[\s\-]', '', s)`: removing every whitespace or hyphen
character is exactly filtering them out. -/
def pySubSpaceDash (s : String) : String :=
  ⟨s.data.filter (fun c => !(isPySpace c || c = '-'))⟩

/-- ASCII decimal digit. -/
def isAsciiDigit (c : Char) : Bool := '0' ≤ c && c ≤ '9'

/-- Models a decimal digit character as Python classifies one (`str.isdigit`
and the regex class `\d`).  Python accepts every Unicode decimal digit; the
model covers the ranges occurring in this development (ASCII `0-9` and
Arabic-Indic `U+0660`-`U+0669`), which is enough to exhibit that non-ASCII
digits pass. -/
def pyDigitChar (c : Char) : Bool :=
  isAsciiDigit c || ('٠' ≤ c && c ≤ '٩')

/-- Models `str.isdigit`: non-empty and every character a decimal digit. -/
def pyIsdigit (l : List Char) : Bool := !l.isEmpty && l.all pyDigitChar

/-! ## UTF-8 (models `str.encode('utf-8')` and strict `bytes.decode('utf-8')`) -/

/-- UTF-8 encoding of one scalar value, as byte values. -/
def utf8EncodeChar (c : Char) : List Nat :=
  let n := c.toNat
  if n < 0x80 then [n]
  else if n < 0x800 then [0xc0 + n / 0x40, 0x80 + n % 0x40]
  else if n < 0x10000 then
    [0xe0 + n / 0x1000, 0x80 + n / 0x40 % 0x40, 0x80 + n % 0x40]
  else
    [0xf0 + n / 0x40000, 0x80 + n / 0x1000 % 0x40, 0x80 + n / 0x40 % 0x40,
      0x80 + n % 0x40]

/-- Models `str.encode('utf-8')` on the underlying character list. -/
def utf8EncodeList (l : List Char) : List Nat :=
  (l.map utf8EncodeChar).flatten

/-- Models `value.encode('utf-8')`. -/
def utf8Encode (s : String) : List Nat := utf8EncodeList s.data

/-- A UTF-8 continuation byte. -/
def isCont (b : Nat) : Bool := 0x80 ≤ b && b < 0xc0

/-- Decode one UTF-8 scalar value from the front of a byte buffer (strict:
rejects stray continuation bytes, overlong forms, surrogates, values above
`U+10FFFF` and truncated sequences).  Returns the scalar and the rest. -/
def utf8Head : List Nat → Option (Nat × List Nat)
  | [] => none
  | b0 :: bs =>
    if b0 < 0x80 then some (b0, bs)
    else if b0 < 0xe0 then
      match bs with
      | b1 :: bs1 =>
        if 0xc2 ≤ b0 && isCont b1 then
          some ((b0 - 0xc0) * 0x40 + (b1 - 0x80), bs1)
        else none
      | [] => none
    else if b0 < 0xf0 then
      match bs with
      | b1 :: b2 :: bs2 =>
        let n := (b0 - 0xe0) * 0x1000 + (b1 - 0x80) * 0x40 + (b2 - 0x80)
        if isCont b1 && isCont b2 && decide (0x800 ≤ n) &&
            !(decide (0xd800 ≤ n) && decide (n < 0xe000)) then
          some (n, bs2)
        else none
      | _ => none
    else
      match bs with
      | b1 :: b2 :: b3 :: bs3 =>
        let n := (b0 - 0xf0) * 0x40000 + (b1 - 0x80) * 0x1000 +
          (b2 - 0x80) * 0x40 + (b3 - 0x80)
        if decide (b0 < 0xf5) && isCont b1 && isCont b2 && isCont b3 &&
            decide (0x10000 ≤ n) && decide (n < 0x110000) then
          some (n, bs3)
        else none
      | _ => none

/-- Fuelled loop of the strict UTF-8 decoder; each scalar consumes at least
one byte, so fuel equal to the buffer length always suffices. -/
def utf8DecodeLoop : Nat → List Nat → Option (List Char)
  | _, [] => some []
  | 0, _ :: _ => none
  | fuel + 1, b0 :: bs =>
    (utf8Head (b0 :: bs)).bind fun p =>
      (utf8DecodeLoop fuel p.2).map fun cs => Char.ofNat p.1 :: cs

/-- Models strict `bytes.decode('utf-8')` on the underlying character list. -/
def utf8DecodeList (l : List Nat) : Option (List Char) :=
  utf8DecodeLoop l.length l

/-- Models `bytes.decode('utf-8')` producing a `String`. -/
def utf8DecodeStr (l : List Nat) : Option String :=
  (utf8DecodeList l).map String.mk

theorem char_toNat_lt (c : Char) : c.toNat < 0x110000 := by
  have hv := c.valid
  unfold Char.toNat
  rcases hv with hv | ⟨_, hv2⟩
  · omega
  · exact hv2

theorem utf8EncodeChar_bytes_lt (c : Char) : ∀ b ∈ utf8EncodeChar c, b < 256 := by
  intro b hb
  have h4 : c.toNat < 0x110000 := char_toNat_lt c
  simp only [utf8EncodeChar] at hb
  split at hb <;> (try split at hb) <;> (try split at hb) <;>
    simp only [List.mem_cons, List.not_mem_nil, or_false] at hb <;> omega

theorem utf8Head_encodeChar (c : Char) (l : List Nat) :
    utf8Head (utf8EncodeChar c ++ l) = some (c.toNat, l) := by
  have hlt : c.toNat < 0x110000 := char_toNat_lt c
  have hsur : c.toNat < 0xd800 ∨ 0xe000 ≤ c.toNat := by
    have hv := c.valid
    unfold Char.toNat
    rcases hv with h | ⟨h1, _⟩
    · left; exact h
    · right; omega
  rcases Nat.lt_or_ge c.toNat 0x80 with h1 | h1
  · have he : utf8EncodeChar c = [c.toNat] := by
      simp only [utf8EncodeChar]; rw [if_pos h1]
    rw [he, List.cons_append, List.nil_append]
    simp only [utf8Head]
    rw [if_pos h1]
  · rcases Nat.lt_or_ge c.toNat 0x800 with h2 | h2
    · have he : utf8EncodeChar c = [0xc0 + c.toNat / 0x40, 0x80 + c.toNat % 0x40] := by
        simp only [utf8EncodeChar]; rw [if_neg (by omega), if_pos h2]
      rw [he]
      simp only [List.cons_append, List.nil_append, utf8Head]
      rw [if_neg (by omega), if_pos (by omega)]
      rw [if_pos (by simp only [isCont, Bool.and_eq_true, decide_eq_true_eq]; omega)]
      have hr : (0xc0 + c.toNat / 0x40 - 0xc0) * 0x40 + (0x80 + c.toNat % 0x40 - 0x80)
          = c.toNat := by omega
      rw [hr]
    · rcases Nat.lt_or_ge c.toNat 0x10000 with h3 | h3
      · have he : utf8EncodeChar c = [0xe0 + c.toNat / 0x1000,
            0x80 + c.toNat / 0x40 % 0x40, 0x80 + c.toNat % 0x40] := by
          simp only [utf8EncodeChar]
          rw [if_neg (by omega), if_neg (by omega), if_pos h3]
        rw [he]
        simp only [List.cons_append, List.nil_append, utf8Head]
        rw [if_neg (by omega), if_neg (by omega), if_pos (by omega)]
        have hr : (0xe0 + c.toNat / 0x1000 - 0xe0) * 0x1000 +
            (0x80 + c.toNat / 0x40 % 0x40 - 0x80) * 0x40 +
            (0x80 + c.toNat % 0x40 - 0x80) = c.toNat := by omega
        rw [if_pos (by
          simp only [hr, isCont, Bool.and_eq_true, Bool.and_eq_false_iff,
            Bool.not_eq_true', decide_eq_true_eq, decide_eq_false_iff_not]
          omega)]
        rw [hr]
      · have he : utf8EncodeChar c = [0xf0 + c.toNat / 0x40000,
            0x80 + c.toNat / 0x1000 % 0x40, 0x80 + c.toNat / 0x40 % 0x40,
            0x80 + c.toNat % 0x40] := by
          simp only [utf8EncodeChar]
          rw [if_neg (by omega), if_neg (by omega), if_neg (by omega)]
        rw [he]
        simp only [List.cons_append, List.nil_append, utf8Head]
        rw [if_neg (by omega), if_neg (by omega), if_neg (by omega)]
        have hr : (0xf0 + c.toNat / 0x40000 - 0xf0) * 0x40000 +
            (0x80 + c.toNat / 0x1000 % 0x40 - 0x80) * 0x1000 +
            (0x80 + c.toNat / 0x40 % 0x40 - 0x80) * 0x40 +
            (0x80 + c.toNat % 0x40 - 0x80) = c.toNat := by omega
        rw [if_pos (by
          simp only [hr, isCont, Bool.and_eq_true, decide_eq_true_eq]
          omega)]
        rw [hr]

theorem utf8EncodeChar_length_pos (c : Char) : 0 < (utf8EncodeChar c).length := by
  simp only [utf8EncodeChar]
  split <;> (try split) <;> (try split) <;> simp

theorem utf8DecodeLoop_nil (fuel : Nat) : utf8DecodeLoop fuel [] = some [] := by
  cases fuel <;> rfl

theorem utf8EncodeList_cons (c : Char) (cs : List Char) :
    utf8EncodeList (c :: cs) = utf8EncodeChar c ++ utf8EncodeList cs := rfl

theorem utf8DecodeLoop_encodeList (cs : List Char) :
    ∀ fuel, (utf8EncodeList cs).length ≤ fuel →
      utf8DecodeLoop fuel (utf8EncodeList cs) = some cs := by
  induction cs with
  | nil => intro fuel _; exact utf8DecodeLoop_nil fuel
  | cons c cs ih =>
    intro fuel hfuel
    rw [utf8EncodeList_cons] at hfuel ⊢
    have hpos := utf8EncodeChar_length_pos c
    have hne : utf8EncodeChar c ≠ [] := by
      intro h; rw [h] at hpos; simp at hpos
    obtain ⟨b0, bs', hcons⟩ := List.exists_cons_of_ne_nil hne
    rw [List.length_append] at hfuel
    cases fuel with
    | zero => omega
    | succ f =>
      rw [hcons, List.cons_append]
      show (utf8Head (b0 :: (bs' ++ utf8EncodeList cs))).bind _ = _
      rw [← List.cons_append, ← hcons, utf8Head_encodeChar]
      have hf : (utf8EncodeList cs).length ≤ f := by
        rw [hcons] at hfuel
        simp only [List.length_cons] at hfuel
        omega
      simp [ih f hf, Char.ofNat_toNat]

theorem utf8DecodeList_encodeList (cs : List Char) :
    utf8DecodeList (utf8EncodeList cs) = some cs :=
  utf8DecodeLoop_encodeList cs _ le_rfl

theorem utf8DecodeStr_encode (s : String) : utf8DecodeStr (utf8Encode s) = some s := by
  unfold utf8DecodeStr utf8Encode
  rw [utf8DecodeList_encodeList]
  rfl

theorem utf8Encode_bytes_lt (s : String) : ∀ b ∈ utf8Encode s, b < 256 := by
  intro b hb
  unfold utf8Encode utf8EncodeList at hb
  rw [List.mem_flatten] at hb
  obtain ⟨l, hl, hbl⟩ := hb
  rw [List.mem_map] at hl
  obtain ⟨c, _, rfl⟩ := hl
  exact utf8EncodeChar_bytes_lt c b hbl

theorem char_toNat_ofNat (n : Nat) (h : n.isValidChar) : (Char.ofNat n).toNat = n := by
  unfold Char.ofNat
  rw [dif_pos h]
  rfl

theorem utf8Head_inv {l : List Nat} {n : Nat} {rest : List Nat}
    (h : utf8Head l = some (n, rest)) :
    Nat.isValidChar n ∧ utf8EncodeChar (Char.ofNat n) ++ rest = l := by
  match l with
  | [] => simp [utf8Head] at h
  | b0 :: bs =>
    rcases Nat.lt_or_ge b0 0x80 with h1 | h1
    · have h' : some (b0, bs) = some (n, rest) := by
        rw [← h]; simp only [utf8Head]; rw [if_pos h1]
      simp only [Option.some.injEq, Prod.mk.injEq] at h'
      obtain ⟨rfl, rfl⟩ := h'
      have hv : Nat.isValidChar b0 := Or.inl (by omega)
      refine ⟨hv, ?_⟩
      have he : utf8EncodeChar (Char.ofNat b0) = [b0] := by
        simp only [utf8EncodeChar, char_toNat_ofNat b0 hv]
        rw [if_pos h1]
      rw [he, List.cons_append, List.nil_append]
    · rcases Nat.lt_or_ge b0 0xe0 with h2 | h2
      · rcases bs with _ | ⟨b1, bs1⟩
        · simp only [utf8Head] at h
          rw [if_neg (by omega), if_pos h2] at h
          simp at h
        · simp only [utf8Head] at h
          rw [if_neg (by omega), if_pos h2] at h
          by_cases hc : (decide (0xc2 ≤ b0) && isCont b1) = true
          · rw [if_pos hc] at h
            simp only [Option.some.injEq, Prod.mk.injEq] at h
            obtain ⟨rfl, rfl⟩ := h
            simp only [isCont, Bool.and_eq_true, decide_eq_true_eq] at hc
            have hv : Nat.isValidChar ((b0 - 0xc0) * 0x40 + (b1 - 0x80)) :=
              Or.inl (by omega)
            refine ⟨hv, ?_⟩
            have he : utf8EncodeChar (Char.ofNat ((b0 - 0xc0) * 0x40 + (b1 - 0x80)))
                = [0xc0 + ((b0 - 0xc0) * 0x40 + (b1 - 0x80)) / 0x40,
                    0x80 + ((b0 - 0xc0) * 0x40 + (b1 - 0x80)) % 0x40] := by
              simp only [utf8EncodeChar, char_toNat_ofNat _ hv]
              rw [if_neg (by omega), if_pos (by omega)]
            rw [he]
            have e0 : 0xc0 + ((b0 - 0xc0) * 0x40 + (b1 - 0x80)) / 0x40 = b0 := by omega
            have e1 : 0x80 + ((b0 - 0xc0) * 0x40 + (b1 - 0x80)) % 0x40 = b1 := by omega
            rw [e0, e1]
            rfl
          · rw [if_neg hc] at h
            simp at h
      · rcases Nat.lt_or_ge b0 0xf0 with h3 | h3
        · rcases bs with _ | ⟨b1, _ | ⟨b2, bs2⟩⟩
          · simp only [utf8Head] at h
            rw [if_neg (by omega), if_neg (by omega), if_pos h3] at h
            simp at h
          · simp only [utf8Head] at h
            rw [if_neg (by omega), if_neg (by omega), if_pos h3] at h
            simp at h
          · simp only [utf8Head] at h
            rw [if_neg (by omega), if_neg (by omega), if_pos h3] at h
            by_cases hc : (isCont b1 && isCont b2 &&
                decide (0x800 ≤ (b0 - 0xe0) * 0x1000 + (b1 - 0x80) * 0x40 + (b2 - 0x80)) &&
                !(decide (0xd800 ≤ (b0 - 0xe0) * 0x1000 + (b1 - 0x80) * 0x40 + (b2 - 0x80)) &&
                  decide ((b0 - 0xe0) * 0x1000 + (b1 - 0x80) * 0x40 + (b2 - 0x80) < 0xe000))) = true
            · rw [if_pos hc] at h
              simp only [Option.some.injEq, Prod.mk.injEq] at h
              obtain ⟨rfl, rfl⟩ := h
              simp only [isCont, Bool.and_eq_true, Bool.not_eq_true',
                Bool.and_eq_false_iff, decide_eq_true_eq, decide_eq_false_iff_not] at hc
              obtain ⟨⟨⟨hb1, hb2⟩, hge⟩, hsur⟩ := hc
              have hv : Nat.isValidChar ((b0 - 0xe0) * 0x1000 + (b1 - 0x80) * 0x40 + (b2 - 0x80)) := by
                rcases hsur with hs | hs
                · exact Or.inl (by omega)
                · exact Or.inr ⟨by omega, by omega⟩
              refine ⟨hv, ?_⟩
              have he : utf8EncodeChar (Char.ofNat ((b0 - 0xe0) * 0x1000 + (b1 - 0x80) * 0x40 + (b2 - 0x80)))
                  = [0xe0 + ((b0 - 0xe0) * 0x1000 + (b1 - 0x80) * 0x40 + (b2 - 0x80)) / 0x1000,
                      0x80 + ((b0 - 0xe0) * 0x1000 + (b1 - 0x80) * 0x40 + (b2 - 0x80)) / 0x40 % 0x40,
                      0x80 + ((b0 - 0xe0) * 0x1000 + (b1 - 0x80) * 0x40 + (b2 - 0x80)) % 0x40] := by
                simp only [utf8EncodeChar, char_toNat_ofNat _ hv]
                rw [if_neg (by omega), if_neg (by omega), if_pos (by omega)]
              rw [he]
              have e0 : 0xe0 + ((b0 - 0xe0) * 0x1000 + (b1 - 0x80) * 0x40 + (b2 - 0x80)) / 0x1000 = b0 := by
                omega
              have e1 : 0x80 + ((b0 - 0xe0) * 0x1000 + (b1 - 0x80) * 0x40 + (b2 - 0x80)) / 0x40 % 0x40 = b1 := by
                omega
              have e2 : 0x80 + ((b0 - 0xe0) * 0x1000 + (b1 - 0x80) * 0x40 + (b2 - 0x80)) % 0x40 = b2 := by
                omega
              rw [e0, e1, e2]
              rfl
            · rw [if_neg hc] at h
              simp at h
        · rcases bs with _ | ⟨b1, _ | ⟨b2, _ | ⟨b3, bs3⟩⟩⟩
          · simp only [utf8Head] at h
            rw [if_neg (by omega), if_neg (by omega), if_neg (by omega)] at h
            simp at h
          · simp only [utf8Head] at h
            rw [if_neg (by omega), if_neg (by omega), if_neg (by omega)] at h
            simp at h
          · simp only [utf8Head] at h
            rw [if_neg (by omega), if_neg (by omega), if_neg (by omega)] at h
            simp at h
          · simp only [utf8Head] at h
            rw [if_neg (by omega), if_neg (by omega), if_neg (by omega)] at h
            by_cases hc : (decide (b0 < 0xf5) && isCont b1 && isCont b2 && isCont b3 &&
                decide (0x10000 ≤ (b0 - 0xf0) * 0x40000 + (b1 - 0x80) * 0x1000 + (b2 - 0x80) * 0x40 + (b3 - 0x80)) &&
                decide ((b0 - 0xf0) * 0x40000 + (b1 - 0x80) * 0x1000 + (b2 - 0x80) * 0x40 + (b3 - 0x80) < 0x110000)) = true
            · rw [if_pos hc] at h
              simp only [Option.some.injEq, Prod.mk.injEq] at h
              obtain ⟨rfl, rfl⟩ := h
              simp only [isCont, Bool.and_eq_true, decide_eq_true_eq] at hc
              obtain ⟨⟨⟨⟨⟨hb0, hb1⟩, hb2⟩, hb3⟩, hge⟩, hlt⟩ := hc
              have hv : Nat.isValidChar ((b0 - 0xf0) * 0x40000 + (b1 - 0x80) * 0x1000 + (b2 - 0x80) * 0x40 + (b3 - 0x80)) :=
                Or.inr ⟨by omega, by omega⟩
              refine ⟨hv, ?_⟩
              have he : utf8EncodeChar (Char.ofNat ((b0 - 0xf0) * 0x40000 + (b1 - 0x80) * 0x1000 + (b2 - 0x80) * 0x40 + (b3 - 0x80)))
                  = [0xf0 + ((b0 - 0xf0) * 0x40000 + (b1 - 0x80) * 0x1000 + (b2 - 0x80) * 0x40 + (b3 - 0x80)) / 0x40000,
                      0x80 + ((b0 - 0xf0) * 0x40000 + (b1 - 0x80) * 0x1000 + (b2 - 0x80) * 0x40 + (b3 - 0x80)) / 0x1000 % 0x40,
                      0x80 + ((b0 - 0xf0) * 0x40000 + (b1 - 0x80) * 0x1000 + (b2 - 0x80) * 0x40 + (b3 - 0x80)) / 0x40 % 0x40,
                      0x80 + ((b0 - 0xf0) * 0x40000 + (b1 - 0x80) * 0x1000 + (b2 - 0x80) * 0x40 + (b3 - 0x80)) % 0x40] := by
                simp only [utf8EncodeChar, char_toNat_ofNat _ hv]
                rw [if_neg (by omega), if_neg (by omega), if_neg (by omega)]
              rw [he]
              have e0 : 0xf0 + ((b0 - 0xf0) * 0x40000 + (b1 - 0x80) * 0x1000 + (b2 - 0x80) * 0x40 + (b3 - 0x80)) / 0x40000 = b0 := by
                omega
              have e1 : 0x80 + ((b0 - 0xf0) * 0x40000 + (b1 - 0x80) * 0x1000 + (b2 - 0x80) * 0x40 + (b3 - 0x80)) / 0x1000 % 0x40 = b1 := by
                omega
              have e2 : 0x80 + ((b0 - 0xf0) * 0x40000 + (b1 - 0x80) * 0x1000 + (b2 - 0x80) * 0x40 + (b3 - 0x80)) / 0x40 % 0x40 = b2 := by
                omega
              have e3 : 0x80 + ((b0 - 0xf0) * 0x40000 + (b1 - 0x80) * 0x1000 + (b2 - 0x80) * 0x40 + (b3 - 0x80)) % 0x40 = b3 := by
                omega
              rw [e0, e1, e2, e3]
              rfl
            · rw [if_neg hc] at h
              simp at h

theorem utf8DecodeLoop_inv :
    ∀ fuel (l : List Nat) (cs : List Char),
      utf8DecodeLoop fuel l = some cs → utf8EncodeList cs = l := by
  intro fuel
  induction fuel with
  | zero =>
    intro l cs h
    cases l with
    | nil =>
      simp only [utf8DecodeLoop_nil, Option.some.injEq] at h
      subst h; rfl
    | cons b bs => exact absurd h (by simp [utf8DecodeLoop])
  | succ f ih =>
    intro l cs h
    cases l with
    | nil =>
      simp only [utf8DecodeLoop_nil, Option.some.injEq] at h
      subst h; rfl
    | cons b0 bs =>
      show utf8EncodeList cs = b0 :: bs
      have h' : (utf8Head (b0 :: bs)).bind
          (fun p => (utf8DecodeLoop f p.2).map fun cs => Char.ofNat p.1 :: cs)
          = some cs := h
      cases hh : utf8Head (b0 :: bs) with
      | none => rw [hh] at h'; exact absurd h' (by simp)
      | some p =>
        rw [hh] at h'
        simp only [Option.some_bind] at h'
        cases hl : utf8DecodeLoop f p.2 with
        | none => rw [hl] at h'; exact absurd h' (by simp)
        | some cs' =>
          rw [hl] at h'
          simp only [Option.map_some', Option.some.injEq] at h'
          subst h'
          obtain ⟨n, rest⟩ := p
          obtain ⟨_, henc⟩ := utf8Head_inv hh
          rw [utf8EncodeList_cons, ih rest cs' hl]
          exact henc

theorem utf8DecodeStr_inv {l : List Nat} {v : String}
    (h : utf8DecodeStr l = some v) : utf8Encode v = l := by
  unfold utf8DecodeStr at h
  cases hd : utf8DecodeList l with
  | none => rw [hd] at h; exact absurd h (by simp)
  | some cs =>
    rw [hd] at h
    simp only [Option.map_some', Option.some.injEq] at h
    subst h
    exact utf8DecodeLoop_inv _ l cs hd

/-! ## Base64 (models `base64.b64encode` / `base64.b64decode`) -/

/-- Character of a sextet in the standard Base64 alphabet. -/
def b64CharOf (n : Nat) : Char :=
  if n < 26 then Char.ofNat (65 + n)
  else if n < 52 then Char.ofNat (97 + (n - 26))
  else if n < 62 then Char.ofNat (48 + (n - 52))
  else if n = 62 then '+'
  else '/'

/-- Sextet of a character in the standard Base64 alphabet. -/
def b64ValOf (c : Char) : Option Nat :=
  if 'A' ≤ c && c ≤ 'Z' then some (c.toNat - 65)
  else if 'a' ≤ c && c ≤ 'z' then some (c.toNat - 97 + 26)
  else if '0' ≤ c && c ≤ '9' then some (c.toNat - 48 + 52)
  else if c = '+' then some 62
  else if c = '/' then some 63
  else none

/-- Models `base64.b64encode`: standard alphabet, `=` padding. -/
def b64Encode : List Nat → List Char
  | [] => []
  | [b0] => [b64CharOf (b0 / 4), b64CharOf (b0 % 4 * 16), '=', '=']
  | [b0, b1] => [b64CharOf (b0 / 4), b64CharOf (b0 % 4 * 16 + b1 / 16),
      b64CharOf (b1 % 16 * 4), '=']
  | b0 :: b1 :: b2 :: rest =>
    b64CharOf (b0 / 4) :: b64CharOf (b0 % 4 * 16 + b1 / 16) ::
      b64CharOf (b1 % 16 * 4 + b2 / 64) :: b64CharOf (b2 % 64) :: b64Encode rest

/-- Models `base64.b64encode(data).decode('utf-8')`: the produced Base64 text. -/
def b64EncodeStr (l : List Nat) : String := ⟨b64Encode l⟩

/-- The quad-wise loop of `binascii.a2b_base64` in its default non-strict
mode, which is what `base64.b64decode(base64_string)` runs.  State: the
position inside the current group of four characters (`p`, 0-3), the leftover
bits of the group seen so far (`lc`), and the number of `=` seen since the
last data character (`pads`).  A data character emits its byte immediately
and resets `pads`; a character outside the alphabet is discarded; `=` is
discarded too unless at least two data characters of the group have been seen
and the `=` signs complete the group to four characters, in which case
decoding ends successfully and the remaining input is ignored; input
exhausted in the middle of a group raises (`none`). -/
def a2bLoop : List Char → Nat → Nat → Nat → Option (List Nat)
  | [], p, _, _ => if p = 0 then some [] else none
  | c :: rest, p, lc, pads =>
    if c = '=' then
      if 2 ≤ p ∧ 4 ≤ p + (pads + 1) then some []
      else a2bLoop rest p lc (pads + 1)
    else
      match b64ValOf c with
      | none => a2bLoop rest p lc pads
      | some v =>
        match p with
        | 0 => a2bLoop rest 1 v 0
        | 1 => (a2bLoop rest 2 (v % 16) 0).map fun bs => (lc * 4 + v / 16) :: bs
        | 2 => (a2bLoop rest 3 (v % 4) 0).map fun bs => (lc * 16 + v / 4) :: bs
        | _ => (a2bLoop rest 0 0 0).map fun bs => (lc * 64 + v) :: bs

/-- Models `base64.b64decode` on a character list (see `a2bLoop`). -/
def b64Decode (l : List Char) : Option (List Nat) := a2bLoop l 0 0 0

/-- Models `base64.b64decode(base64_string)`. -/
def b64DecodeStr (s : String) : Option (List Nat) := b64Decode s.data

theorem b64ValOf_charOf : ∀ n, n < 64 → b64ValOf (b64CharOf n) = some n := by decide

theorem b64CharOf_ne_pad : ∀ n, n < 64 → b64CharOf n ≠ '=' := by decide

theorem a2bLoop_data0 (x : Nat) (hx : x < 64) (rest : List Char) (lc pads : Nat) :
    a2bLoop (b64CharOf x :: rest) 0 lc pads = a2bLoop rest 1 x 0 := by
  simp only [a2bLoop]
  rw [if_neg (b64CharOf_ne_pad x hx)]
  simp only [b64ValOf_charOf x hx]

theorem a2bLoop_data1 (x : Nat) (hx : x < 64) (rest : List Char) (lc pads : Nat) :
    a2bLoop (b64CharOf x :: rest) 1 lc pads
      = (a2bLoop rest 2 (x % 16) 0).map fun bs => (lc * 4 + x / 16) :: bs := by
  simp only [a2bLoop]
  rw [if_neg (b64CharOf_ne_pad x hx)]
  simp only [b64ValOf_charOf x hx]

theorem a2bLoop_data2 (x : Nat) (hx : x < 64) (rest : List Char) (lc pads : Nat) :
    a2bLoop (b64CharOf x :: rest) 2 lc pads
      = (a2bLoop rest 3 (x % 4) 0).map fun bs => (lc * 16 + x / 4) :: bs := by
  simp only [a2bLoop]
  rw [if_neg (b64CharOf_ne_pad x hx)]
  simp only [b64ValOf_charOf x hx]

theorem a2bLoop_data3 (x : Nat) (hx : x < 64) (rest : List Char) (lc pads : Nat) :
    a2bLoop (b64CharOf x :: rest) 3 lc pads
      = (a2bLoop rest 0 0 0).map fun bs => (lc * 64 + x) :: bs := by
  simp only [a2bLoop]
  rw [if_neg (b64CharOf_ne_pad x hx)]
  simp only [b64ValOf_charOf x hx]

theorem a2bLoop_pad3 (rest : List Char) (lc : Nat) :
    a2bLoop ('=' :: rest) 3 lc 0 = some [] := by
  simp [a2bLoop]

theorem a2bLoop_pad2 (rest : List Char) (lc : Nat) :
    a2bLoop ('=' :: '=' :: rest) 2 lc 0 = some [] := by
  simp [a2bLoop]

theorem b64Decode_encode (l : List Nat) (h : ∀ b ∈ l, b < 256) :
    b64Decode (b64Encode l) = some l := by
  induction l using b64Encode.induct with
  | case1 => rfl
  | case2 b0 =>
    have h0 : b0 < 256 := h b0 (by simp)
    show a2bLoop [b64CharOf (b0 / 4), b64CharOf (b0 % 4 * 16), '=', '='] 0 0 0 = _
    rw [a2bLoop_data0 _ (by omega), a2bLoop_data1 _ (by omega), a2bLoop_pad2]
    simp only [Option.map_some', Option.some.injEq, List.cons.injEq, and_true]
    omega
  | case3 b0 b1 =>
    have h0 : b0 < 256 := h b0 (by simp)
    have h1 : b1 < 256 := h b1 (by simp)
    show a2bLoop [b64CharOf (b0 / 4), b64CharOf (b0 % 4 * 16 + b1 / 16),
      b64CharOf (b1 % 16 * 4), '='] 0 0 0 = _
    rw [a2bLoop_data0 _ (by omega), a2bLoop_data1 _ (by omega),
      a2bLoop_data2 _ (by omega), a2bLoop_pad3]
    simp only [Option.map_some', Option.some.injEq, List.cons.injEq, and_true]
    constructor <;> omega
  | case4 b0 b1 b2 rest ih =>
    have h0 : b0 < 256 := h b0 (by simp)
    have h1 : b1 < 256 := h b1 (by simp)
    have h2 : b2 < 256 := h b2 (by simp)
    have hrest : ∀ b ∈ rest, b < 256 := fun b hb => h b (by simp [hb])
    show a2bLoop (b64CharOf (b0 / 4) :: b64CharOf (b0 % 4 * 16 + b1 / 16) ::
      b64CharOf (b1 % 16 * 4 + b2 / 64) :: b64CharOf (b2 % 64) ::
      b64Encode rest) 0 0 0 = _
    rw [a2bLoop_data0 _ (by omega), a2bLoop_data1 _ (by omega),
      a2bLoop_data2 _ (by omega), a2bLoop_data3 _ (by omega)]
    rw [show a2bLoop (b64Encode rest) 0 0 0 = some rest from ih hrest]
    simp only [Option.map_some', Option.some.injEq, List.cons.injEq, and_true]
    refine ⟨by omega, by omega, by omega⟩

theorem b64DecodeStr_encodeStr (l : List Nat) (h : ∀ b ∈ l, b < 256) :
    b64DecodeStr (b64EncodeStr l) = some l :=
  b64Decode_encode l h

/-! ## Field validators (`validate_vat_number`, `validate_amount`,
`validate_datetime` from `zatca_qr.py`) -/

/-- `validate_vat_number`: false on the empty string, otherwise remove
whitespace and hyphens and require a 15-character digit string. -/
def validate_vat_number (vat_number : String) : Bool :=
  if vat_number = "" then false
  else
    let cleaned := (pySubSpaceDash vat_number).data
    pyIsdigit cleaned && cleaned.length == 15

/-- Value of a list of ASCII digits. -/
def digitsToNat (l : List Char) : Nat :=
  l.foldl (fun a c => a * 10 + (c.toNat - 48)) 0

/-- Models `float(s)` for finite decimal literals: optional surrounding
whitespace, optional sign, digits with optional fraction part and optional
decimal exponent.  The result is the exact rational `m / 10 ^ e` as the pair
`(m, e)`.  `inf`/`nan` literals and digit-group underscores, which Python also
accepts, are outside the model; no claim below depends on them. -/
def parseFloatList (l : List Char) : Option (Int × Nat) :=
  let body := pyStripList l
  let sr : Int × List Char :=
    match body with
    | '+' :: r => (1, r)
    | '-' :: r => (-1, r)
    | r => (1, r)
  let r := sr.2
  let intd := r.takeWhile isAsciiDigit
  let r1 := r.dropWhile isAsciiDigit
  let fr : List Char × List Char :=
    match r1 with
    | '.' :: r2 => (r2.takeWhile isAsciiDigit, r2.dropWhile isAsciiDigit)
    | _ => ([], r1)
  let fracd := fr.1
  if intd.isEmpty && fracd.isEmpty then none
  else
    let m : Int := sr.1 * (digitsToNat (intd ++ fracd) : Int)
    match fr.2 with
    | [] => some (m, fracd.length)
    | e :: r4 =>
      if e = 'e' || e = 'E' then
        let er : Bool × List Char :=
          match r4 with
          | '+' :: r5 => (true, r5)
          | '-' :: r5 => (false, r5)
          | r5 => (true, r5)
        let ed := er.2.takeWhile isAsciiDigit
        let r6 := er.2.dropWhile isAsciiDigit
        if ed.isEmpty || !r6.isEmpty then none
        else
          let k := digitsToNat ed
          if er.1 then
            if fracd.length ≤ k then some (m * (10 : Int) ^ (k - fracd.length), 0)
            else some (m, fracd.length - k)
          else some (m, fracd.length + k)
      else none

/-- Models `float(s)` (see `parseFloatList`). -/
def parseFloat (s : String) : Option (Int × Nat) := parseFloatList s.data

/-- Two-digit decimal rendering with a leading zero. -/
def pad2 (n : Nat) : String := if n < 10 then "0" ++ toString n else toString n

/-- Models `f"{num:.2f}"`: render the parsed value with exactly two fraction
digits.  A third fraction digit rounds half-up here where CPython rounds the
underlying binary double half-even; the difference is immaterial below
because this rendering only feeds an equality test whose disjunction partner
is decisive for every finite value. -/
def formatTwoDec (v : Int × Nat) : String :=
  let scaled : Int :=
    if v.2 ≤ 2 then v.1 * (10 : Int) ^ (2 - v.2)
    else (2 * v.1 + (10 : Int) ^ (v.2 - 2)) / (2 * (10 : Int) ^ (v.2 - 2))
  let sign := if scaled < 0 then "-" else ""
  sign ++ toString (scaled.natAbs / 100) ++ "." ++ pad2 (scaled.natAbs % 100)

/-- The exact rational difference of two parsed values `(m, e)` (models
float subtraction; exact since no claim depends on binary rounding). -/
def pfSub (a b : Int × Nat) : Int × Nat :=
  (a.1 * (10 : Int) ^ b.2 - b.1 * (10 : Int) ^ a.2, a.2 + b.2)

/-- Models `abs x < 0.001` on a parsed value. -/
def pfAbsLtMilli (v : Int × Nat) : Bool := v.1.natAbs * 1000 < 10 ^ v.2

/-- `validate_amount`: false on the empty string or a failed parse; otherwise
accept when the two-decimal rendering equals the input, or when
`abs(float(amount) - num) < 0.001` — and both operands of that subtraction
are the same parse of the same string. -/
def validate_amount (amount : String) : Bool :=
  if amount = "" then false
  else
    match parseFloat amount with
    | none => false
    | some num => formatTwoDec num == amount || pfAbsLtMilli (pfSub num num)

/-- Value of two ASCII digit characters. -/
def digit2 (a b : Char) : Nat := digitsToNat [a, b]

def isLeapYear (y : Nat) : Bool := (y % 4 == 0 && !(y % 100 == 0)) || y % 400 == 0

def daysInMonth (y m : Nat) : Nat :=
  if m = 2 then (if isLeapYear y then 29 else 28)
  else if m = 4 ∨ m = 6 ∨ m = 9 ∨ m = 11 then 30
  else 31

/-- Offset part of the `fromisoformat` grammar: empty, or
`±HH:MM[:SS[.ffffff]]` with each component range-checked. -/
def isoTzOk : List Char → Bool
  | [] => true
  | sg :: h1 :: h2 :: ':' :: m1 :: m2 :: rest =>
    (sg = '+' || sg = '-') && isAsciiDigit h1 && isAsciiDigit h2 &&
    isAsciiDigit m1 && isAsciiDigit m2 &&
    digit2 h1 h2 < 24 && digit2 m1 m2 < 60 &&
    (match rest with
     | [] => true
     | ':' :: s1 :: s2 :: rest2 =>
       isAsciiDigit s1 && isAsciiDigit s2 && digit2 s1 s2 < 60 &&
       (match rest2 with
        | [] => true
        | '.' :: fs => fs.all isAsciiDigit && fs.length == 6
        | _ => false)
     | _ => false)
  | _ => false

/-- After the seconds of the time part: optional fraction of exactly three or
six digits, then the offset part. -/
def isoAfterSec : List Char → Bool
  | '.' :: rest =>
    let fd := rest.takeWhile isAsciiDigit
    (fd.length == 3 || fd.length == 6) && isoTzOk (rest.drop fd.length)
  | l => isoTzOk l

def isoAfterMin : List Char → Bool
  | ':' :: s1 :: s2 :: rest =>
    isAsciiDigit s1 && isAsciiDigit s2 && digit2 s1 s2 < 60 && isoAfterSec rest
  | l => isoTzOk l

def isoAfterHour : List Char → Bool
  | ':' :: m1 :: m2 :: rest =>
    isAsciiDigit m1 && isAsciiDigit m2 && digit2 m1 m2 < 60 && isoAfterMin rest
  | l => isoTzOk l

/-- Time part of the `fromisoformat` grammar: `HH[:MM[:SS[.fff|.ffffff]]]`
plus optional offset. -/
def isoTimeOk : List Char → Bool
  | h1 :: h2 :: rest =>
    isAsciiDigit h1 && isAsciiDigit h2 && digit2 h1 h2 < 24 && isoAfterHour rest
  | _ => false

/-- Models `datetime.fromisoformat` (the grammar of Python ≤ 3.10, which the
module's `Z`-replacement targets): `YYYY-MM-DD` with a valid calendar date,
optionally followed by one separator character and a range-checked time. -/
def fromisoformatOk (l : List Char) : Bool :=
  match l with
  | y1 :: y2 :: y3 :: y4 :: '-' :: mo1 :: mo2 :: '-' :: d1 :: d2 :: rest =>
    isAsciiDigit y1 && isAsciiDigit y2 && isAsciiDigit y3 && isAsciiDigit y4 &&
    isAsciiDigit mo1 && isAsciiDigit mo2 && isAsciiDigit d1 && isAsciiDigit d2 &&
    (let y := digitsToNat [y1, y2, y3, y4]
     let mo := digit2 mo1 mo2
     let d := digit2 d1 d2
     1 ≤ y && 1 ≤ mo && mo ≤ 12 && 1 ≤ d && d ≤ daysInMonth y mo) &&
    (match rest with
     | [] => true
     | _ :: timeRest => isoTimeOk timeRest)
  | _ => false

/-- Models `dt_string.replace('Z', '+00:00')` (every occurrence). -/
def pyReplaceZ (l : List Char) : List Char :=
  l.foldr
    (fun c acc =>
      if c = 'Z' then '+' :: '0' :: '0' :: ':' :: '0' :: '0' :: acc else c :: acc)
    []

/-- Models `re.match(r'^\d{4}-\d{2}-\d{2}T\d{2}:\d{2}:\d{2}', s)`: the first
nineteen characters have the date-time shape; anything may follow (the
pattern is not anchored at the end). -/
def dtPatternOk : List Char → Bool
  | y1 :: y2 :: y3 :: y4 :: '-' :: mo1 :: mo2 :: '-' :: d1 :: d2 :: 'T' ::
      h1 :: h2 :: ':' :: mi1 :: mi2 :: ':' :: s1 :: s2 :: _ =>
    [y1, y2, y3, y4, mo1, mo2, d1, d2, h1, h2, mi1, mi2, s1, s2].all pyDigitChar
  | _ => false

/-- `validate_datetime`: false on the empty string; otherwise parse the
`Z`-replaced string with `fromisoformat` (an exception yields false) and
return whether the unanchored pattern matches the original string. -/
def validate_datetime (dt_string : String) : Bool :=
  if dt_string = "" then false
  else if fromisoformatOk (pyReplaceZ dt_string.data) then dtPatternOk dt_string.data
  else false

/-! ## TLV field builder (`build_tlv_field`) -/

/-- `build_tlv_field`: encode the value as UTF-8; fail (a `ValueError`,
`FieldTooLargeError` in the spec) iff the byte length exceeds 255; otherwise
return `[tag] ++ [length] ++ value_bytes`. -/
def build_tlv_field (tag : Nat) (value : String) : Option (List Nat) :=
  let value_bytes := utf8Encode value
  let length := value_bytes.length
  if length > 255 then none
  else some (tag :: length :: value_bytes)

/-! ## Encoder (`generate_zatca_qr`) -/

/-- The distinct `ValueError`s `generate_zatca_qr` can raise, told apart in
the source by their messages. -/
inductive EncodeError where
  | sellerNameRequired : EncodeError
  | invalidVatNumber : EncodeError
  | invalidDatetime : EncodeError
  | invalidTotalAmount : EncodeError
  | invalidVatAmount : EncodeError
  | fieldTooLarge : Nat → EncodeError
deriving DecidableEq

/-- The five validation failures (`ValidationError` in the spec);
`fieldTooLarge` is the separate `FieldTooLargeError` raised by
`build_tlv_field` and merely propagated by the encoder. -/
def EncodeError.isValidation : EncodeError → Bool
  | .fieldTooLarge _ => false
  | _ => true

/-- `build_tlv_field` as used inside the encoder, with its failure carrying
the offending tag. -/
def buildE (tag : Nat) (value : String) : Except EncodeError (List Nat) :=
  match build_tlv_field tag value with
  | some bs => .ok bs
  | none => .error (.fieldTooLarge tag)

/-- `generate_zatca_qr`: validate the five fields in order, raising at the
first failure; clean the VAT number; build the five TLV fields in tag order;
concatenate and Base64-encode. -/
def generate_zatca_qr (seller_name vat_number invoice_datetime total_amount
    vat_amount : String) : Except EncodeError String :=
  if seller_name = "" ∨ pyStrip seller_name = "" then .error .sellerNameRequired
  else if validate_vat_number vat_number = false then .error .invalidVatNumber
  else if validate_datetime invoice_datetime = false then .error .invalidDatetime
  else if validate_amount total_amount = false then .error .invalidTotalAmount
  else if validate_amount vat_amount = false then .error .invalidVatAmount
  else
    let cleaned_vat := pySubSpaceDash vat_number
    (buildE 1 (pyStrip seller_name)).bind fun f1 =>
    (buildE 2 cleaned_vat).bind fun f2 =>
    (buildE 3 invoice_datetime).bind fun f3 =>
    (buildE 4 total_amount).bind fun f4 =>
    (buildE 5 vat_amount).bind fun f5 =>
    .ok (b64EncodeStr (f1 ++ f2 ++ f3 ++ f4 ++ f5))

/-! ## Decoder (`decode_zatca_qr`) -/

/-- The decoder's result dictionary: a Python `dict` keyed by tag numbers,
i.e. an insertion-ordered association list with distinct keys; assignment to
an existing key updates the value in place, a new key appends. -/
abbrev Dict := List (Nat × String)

/-- Models `result[tag] = value` on a Python `dict`. -/
def dictInsert (d : Dict) (k : Nat) (v : String) : Dict :=
  if d.any (fun p => p.1 == k) then
    d.map (fun p => if p.1 == k then (k, v) else p)
  else d ++ [(k, v)]

/-- Models `decoded.get(k)` on a Python `dict`. -/
def dictGet (d : Dict) (k : Nat) : Option String :=
  (d.find? (fun p => p.1 == k)).map Prod.snd

/-- The TLV walk of `decode_zatca_qr` (fuelled; each field consumes at least
two bytes, so fuel equal to the buffer length suffices).  A single byte where
a header is expected, a declared length reading past the end of the buffer,
or value bytes that are not valid UTF-8 raise (`none`). -/
def parseTlvLoop : Nat → List Nat → Dict → Option Dict
  | _, [], result => some result
  | 0, _ :: _, _ => none
  | _ + 1, [_], _ => none
  | fuel + 1, tag :: len :: rest, result =>
    if len ≤ rest.length then
      (utf8DecodeStr (rest.take len)).bind fun value =>
        parseTlvLoop fuel (rest.drop len) (dictInsert result tag value)
    else none

/-- `decode_zatca_qr`: Base64-decode, then walk the TLV fields into a
dictionary; any failure raises `ValueError` (`none`). -/
def decode_zatca_qr (base64_string : String) : Option Dict :=
  (b64DecodeStr base64_string).bind fun tlv_data =>
    parseTlvLoop tlv_data.length tlv_data []

/-- The same TLV walk collecting every parsed `(tag, value)` pair in order —
the "tag/value pairs it parses" of the claim, before the dictionary collapses
duplicate tags. -/
def tlvPairsLoop : Nat → List Nat → Option (List (Nat × String))
  | _, [] => some []
  | 0, _ :: _ => none
  | _ + 1, [_] => none
  | fuel + 1, tag :: len :: rest =>
    if len ≤ rest.length then
      (utf8DecodeStr (rest.take len)).bind fun value =>
        (tlvPairsLoop fuel (rest.drop len)).map ((tag, value) :: ·)
    else none

/-- All `(tag, value)` pairs of a TLV buffer, in parse order. -/
def tlvPairs (l : List Nat) : Option (List (Nat × String)) :=
  tlvPairsLoop l.length l

/-- The dictionary the parsed pairs collapse to. -/
def dictOfPairs (ps : List (Nat × String)) : Dict :=
  ps.foldl (fun d p => dictInsert d p.1 p.2) []

/-- The TLV byte encoding of a list of `(tag, value)` fields, in order. -/
def encodeFields (ps : List (Nat × String)) : List Nat :=
  (ps.map (fun p => p.1 :: (utf8Encode p.2).length :: utf8Encode p.2)).flatten

/-! ## Verifier (`verify_zatca_qr`) -/

/-- How a Python f-string renders `decoded.get(tag)`. -/
def pyStr : Option String → String
  | none => "None"
  | some s => s

/-- The `Tag N (Label) mismatch: ...` message format shared by the verifier's
five comparisons. -/
def tagMsg (tag : Nat) (label expected actual : String) : String :=
  "Tag " ++ toString tag ++ " (" ++ label ++ ") mismatch: expected '" ++
    expected ++ "', got '" ++ actual ++ "'"

/-- The verifier's message for a tag outside 1..5. -/
def unexpectedTagMsg (tag : Nat) : String :=
  "Unexpected tag " ++ toString tag ++ " found in QR code"

/-- The single entry the verifier reports when decoding fails; the source
interpolates the exception text after the same `Decoding error: ` head. -/
def decodeErrorMsg : String := "Decoding error: Failed to decode QR code"

/-- `verify_zatca_qr`: decode (a failure becomes one reported entry), compare
the five tags against the (trimmed / cleaned) expected values appending one
entry per mismatch, flag every tag outside 1..5, and succeed iff no entry was
collected. -/
def verify_zatca_qr (base64_string expected_seller_name expected_vat_number
    expected_datetime expected_total_amount expected_vat_amount : String) :
    Bool × List String :=
  match decode_zatca_qr base64_string with
  | none => (false, [decodeErrorMsg])
  | some decoded =>
    let cleaned_expected_vat := pySubSpaceDash expected_vat_number
    let errors : List String :=
      (if dictGet decoded 1 ≠ some (pyStrip expected_seller_name) then
        [tagMsg 1 "Seller Name" expected_seller_name (pyStr (dictGet decoded 1))]
       else []) ++
      (if dictGet decoded 2 ≠ some cleaned_expected_vat then
        [tagMsg 2 "VAT Number" cleaned_expected_vat (pyStr (dictGet decoded 2))]
       else []) ++
      (if dictGet decoded 3 ≠ some expected_datetime then
        [tagMsg 3 "DateTime" expected_datetime (pyStr (dictGet decoded 3))]
       else []) ++
      (if dictGet decoded 4 ≠ some expected_total_amount then
        [tagMsg 4 "Total Amount" expected_total_amount (pyStr (dictGet decoded 4))]
       else []) ++
      (if dictGet decoded 5 ≠ some expected_vat_amount then
        [tagMsg 5 "VAT Amount" expected_vat_amount (pyStr (dictGet decoded 5))]
       else []) ++
      ((decoded.filter
          (fun p => !(p.1 == 1 || p.1 == 2 || p.1 == 3 || p.1 == 4 || p.1 == 5))).map
        (fun p => unexpectedTagMsg p.1))
    (errors.length == 0, errors)

/-! ## Lemmas about the TLV walk -/

theorem parseTlvLoop_nil (fuel : Nat) (acc : Dict) :
    parseTlvLoop fuel [] acc = some acc := by
  cases fuel <;> rfl

theorem tlvPairsLoop_nil (fuel : Nat) : tlvPairsLoop fuel [] = some [] := by
  cases fuel <;> rfl

theorem parseTlvLoop_cons (fuel tag len : Nat) (rest : List Nat) (acc : Dict) :
    parseTlvLoop (fuel + 1) (tag :: len :: rest) acc
      = if len ≤ rest.length then
          (utf8DecodeStr (rest.take len)).bind fun value =>
            parseTlvLoop fuel (rest.drop len) (dictInsert acc tag value)
        else none := rfl

theorem tlvPairsLoop_cons (fuel tag len : Nat) (rest : List Nat) :
    tlvPairsLoop (fuel + 1) (tag :: len :: rest)
      = if len ≤ rest.length then
          (utf8DecodeStr (rest.take len)).bind fun value =>
            (tlvPairsLoop fuel (rest.drop len)).map ((tag, value) :: ·)
        else none := rfl

/-- The dictionary walk is the pair walk followed by collapsing the pairs
into the dictionary. -/
theorem parseTlvLoop_eq_pairs :
    ∀ fuel (l : List Nat) (acc : Dict),
      parseTlvLoop fuel l acc
        = (tlvPairsLoop fuel l).map
            (fun ps => ps.foldl (fun d p => dictInsert d p.1 p.2) acc) := by
  intro fuel
  induction fuel with
  | zero =>
    intro l acc
    cases l with
    | nil => simp [parseTlvLoop_nil, tlvPairsLoop_nil]
    | cons b bs => rfl
  | succ f ih =>
    intro l acc
    match l with
    | [] => simp [parseTlvLoop_nil, tlvPairsLoop_nil]
    | [x] => rfl
    | tag :: len :: rest =>
      rw [parseTlvLoop_cons, tlvPairsLoop_cons]
      by_cases hlen : len ≤ rest.length
      · rw [if_pos hlen, if_pos hlen]
        cases hv : utf8DecodeStr (rest.take len) with
        | none => rfl
        | some value =>
          simp only [Option.some_bind]
          rw [ih]
          cases hp : tlvPairsLoop f (rest.drop len) with
          | none => rfl
          | some ps => simp
      · rw [if_neg hlen, if_neg hlen]; rfl

theorem encodeFields_cons (t : Nat) (v : String) (ps : List (Nat × String)) :
    encodeFields ((t, v) :: ps)
      = t :: (utf8Encode v).length :: (utf8Encode v ++ encodeFields ps) := by
  simp [encodeFields]

/-- Parsing the encoding of any field list succeeds and returns exactly those
pairs, whatever the tags and however often they repeat. -/
theorem tlvPairsLoop_encodeFields (ps : List (Nat × String)) :
    ∀ fuel, (encodeFields ps).length ≤ fuel →
      tlvPairsLoop fuel (encodeFields ps) = some ps := by
  induction ps with
  | nil => intro fuel _; exact tlvPairsLoop_nil fuel
  | cons p ps ih =>
    obtain ⟨t, v⟩ := p
    intro fuel hfuel
    rw [encodeFields_cons] at hfuel ⊢
    simp only [List.length_cons, List.length_append] at hfuel
    cases fuel with
    | zero => omega
    | succ f =>
      rw [tlvPairsLoop_cons]
      rw [if_pos (by rw [List.length_append]; omega)]
      rw [List.take_left, List.drop_left, utf8DecodeStr_encode]
      simp only [Option.some_bind]
      rw [ih f (by omega)]
      rfl

/-- Conversely, a successful parse forces the buffer to be exactly the
encoding of the returned pairs. -/
theorem tlvPairsLoop_inv :
    ∀ fuel (l : List Nat) (ps : List (Nat × String)),
      tlvPairsLoop fuel l = some ps → encodeFields ps = l := by
  intro fuel
  induction fuel with
  | zero =>
    intro l ps h
    cases l with
    | nil =>
      rw [tlvPairsLoop_nil] at h
      simp only [Option.some.injEq] at h
      subst h; rfl
    | cons b bs => exact absurd h (by simp [tlvPairsLoop])
  | succ f ih =>
    intro l ps h
    match l with
    | [] =>
      rw [tlvPairsLoop_nil] at h
      simp only [Option.some.injEq] at h
      subst h; rfl
    | [x] => exact absurd h (by simp [tlvPairsLoop])
    | tag :: len :: rest =>
      rw [tlvPairsLoop_cons] at h
      by_cases hlen : len ≤ rest.length
      · rw [if_pos hlen] at h
        cases hv : utf8DecodeStr (rest.take len) with
        | none => rw [hv] at h; exact absurd h (by simp)
        | some value =>
          rw [hv] at h
          simp only [Option.some_bind] at h
          cases hp : tlvPairsLoop f (rest.drop len) with
          | none => rw [hp] at h; exact absurd h (by simp)
          | some ps' =>
            rw [hp] at h
            simp only [Option.map_some', Option.some.injEq] at h
            subst h
            rw [encodeFields_cons]
            have henc : utf8Encode value = rest.take len := utf8DecodeStr_inv hv
            have hlen2 : (utf8Encode value).length = len := by
              rw [henc, List.length_take]
              omega
            rw [ih _ _ hp, hlen2, henc, List.take_append_drop]
      · rw [if_neg hlen] at h
        exact absurd h (by simp)

/-- `tlvPairs` succeeds exactly on well-formed TLV buffers, and then returns
exactly the encoded pairs. -/
theorem tlvPairs_iff (l : List Nat) (ps : List (Nat × String)) :
    tlvPairs l = some ps ↔ l = encodeFields ps := by
  constructor
  · intro h
    exact (tlvPairsLoop_inv _ _ _ h).symm
  · intro h
    subst h
    exact tlvPairsLoop_encodeFields ps _ le_rfl

/-- The decoder is the Base64 decode followed by the pair walk, with the
pairs collapsed into the result dictionary. -/
theorem decode_eq_pairs (s : String) :
    decode_zatca_qr s
      = (b64DecodeStr s).bind fun bs => (tlvPairs bs).map dictOfPairs := by
  unfold decode_zatca_qr tlvPairs dictOfPairs
  cases b64DecodeStr s with
  | none => rfl
  | some bs =>
    simp only [Option.some_bind]
    exact parseTlvLoop_eq_pairs _ bs []

/-! ## Round trip of the encoder -/

theorem build_tlv_field_eq_some (t : Nat) (v : String) (bs : List Nat) :
    build_tlv_field t v = some bs
      ↔ (utf8Encode v).length ≤ 255 ∧ bs = t :: (utf8Encode v).length :: utf8Encode v := by
  simp only [build_tlv_field]
  by_cases hl : (utf8Encode v).length > 255
  · rw [if_pos hl]
    simp
    omega
  · rw [if_neg hl]
    simp only [Option.some.injEq]
    constructor
    · intro h
      exact ⟨by omega, h.symm⟩
    · intro h
      exact h.2.symm

theorem encodeFields_bytes_lt (ps : List (Nat × String))
    (h1 : ∀ p ∈ ps, p.1 < 256) (h2 : ∀ p ∈ ps, (utf8Encode p.2).length ≤ 255) :
    ∀ x ∈ encodeFields ps, x < 256 := by
  intro x hx
  unfold encodeFields at hx
  rw [List.mem_flatten] at hx
  obtain ⟨l, hl, hxl⟩ := hx
  rw [List.mem_map] at hl
  obtain ⟨p, hp, rfl⟩ := hl
  simp only [List.mem_cons] at hxl
  rcases hxl with rfl | rfl | hxl
  · exact h1 p hp
  · have := h2 p hp; omega
  · exact utf8Encode_bytes_lt _ x hxl

/-- A successful encode pins the output string and decodes back to exactly
the cleaned five-field mapping. -/
theorem generate_decode (a b c d e s : String)
    (h : generate_zatca_qr a b c d e = .ok s) :
    decode_zatca_qr s
      = some [(1, pyStrip a), (2, pySubSpaceDash b), (3, c), (4, d), (5, e)] := by
  simp only [generate_zatca_qr] at h
  split at h
  · exact absurd h (by simp)
  · split at h
    · exact absurd h (by simp)
    · split at h
      · exact absurd h (by simp)
      · split at h
        · exact absurd h (by simp)
        · split at h
          · exact absurd h (by simp)
          · cases hb1 : build_tlv_field 1 (pyStrip a) with
            | none => rw [buildE, hb1] at h; exact absurd h (by simp [Except.bind])
            | some f1 =>
            rw [buildE, hb1] at h
            simp only [Except.bind] at h
            cases hb2 : build_tlv_field 2 (pySubSpaceDash b) with
            | none => rw [buildE, hb2] at h; exact absurd h (by simp [Except.bind])
            | some f2 =>
            rw [buildE, hb2] at h
            simp only [Except.bind] at h
            cases hb3 : build_tlv_field 3 c with
            | none => rw [buildE, hb3] at h; exact absurd h (by simp [Except.bind])
            | some f3 =>
            rw [buildE, hb3] at h
            simp only [Except.bind] at h
            cases hb4 : build_tlv_field 4 d with
            | none => rw [buildE, hb4] at h; exact absurd h (by simp [Except.bind])
            | some f4 =>
            rw [buildE, hb4] at h
            simp only [Except.bind] at h
            cases hb5 : build_tlv_field 5 e with
            | none => rw [buildE, hb5] at h; exact absurd h (by simp [Except.bind])
            | some f5 =>
            rw [buildE, hb5] at h
            simp only [Except.bind, Except.ok.injEq] at h
            subst h
            obtain ⟨hl1, hs1⟩ := (build_tlv_field_eq_some _ _ _).mp hb1
            obtain ⟨hl2, hs2⟩ := (build_tlv_field_eq_some _ _ _).mp hb2
            obtain ⟨hl3, hs3⟩ := (build_tlv_field_eq_some _ _ _).mp hb3
            obtain ⟨hl4, hs4⟩ := (build_tlv_field_eq_some _ _ _).mp hb4
            obtain ⟨hl5, hs5⟩ := (build_tlv_field_eq_some _ _ _).mp hb5
            subst hs1; subst hs2; subst hs3; subst hs4; subst hs5
            set fields : List (Nat × String) :=
              [(1, pyStrip a), (2, pySubSpaceDash b), (3, c), (4, d), (5, e)] with hfields
            have htlv : (1 :: (utf8Encode (pyStrip a)).length :: utf8Encode (pyStrip a)) ++
                (2 :: (utf8Encode (pySubSpaceDash b)).length :: utf8Encode (pySubSpaceDash b)) ++
                (3 :: (utf8Encode c).length :: utf8Encode c) ++
                (4 :: (utf8Encode d).length :: utf8Encode d) ++
                (5 :: (utf8Encode e).length :: utf8Encode e)
                = encodeFields fields := by
              simp [hfields, encodeFields, List.append_assoc]
            rw [htlv]
            have hbytes : ∀ x ∈ encodeFields fields, x < 256 := by
              apply encodeFields_bytes_lt
              · intro p hp
                simp only [hfields, List.mem_cons, List.not_mem_nil, or_false] at hp
                rcases hp with rfl | rfl | rfl | rfl | rfl <;> omega
              · intro p hp
                simp only [hfields, List.mem_cons, List.not_mem_nil, or_false] at hp
                rcases hp with rfl | rfl | rfl | rfl | rfl <;> assumption
            rw [decode_eq_pairs, b64DecodeStr_encodeStr _ hbytes]
            simp only [Option.some_bind]
            rw [(tlvPairs_iff _ fields).mpr rfl]
            rfl

/-- Verifying a tag against the exact inputs it was encoded from reports no
mismatch. -/
theorem generate_verify (a b c d e s : String)
    (h : generate_zatca_qr a b c d e = .ok s) :
    verify_zatca_qr s a b c d e = (true, []) := by
  have hd := generate_decode a b c d e s h
  unfold verify_zatca_qr
  rw [hd]
  simp [dictGet]

/-! ## The encoder's failure order -/

theorem generate_eval1 (a b c d e : String) (h1 : a = "" ∨ pyStrip a = "") :
    generate_zatca_qr a b c d e = .error .sellerNameRequired := by
  simp [generate_zatca_qr, h1]

theorem generate_eval2 (a b c d e : String) (h1 : ¬(a = "" ∨ pyStrip a = ""))
    (h2 : validate_vat_number b = false) :
    generate_zatca_qr a b c d e = .error .invalidVatNumber := by
  simp [generate_zatca_qr, h1, h2]

theorem generate_eval3 (a b c d e : String) (h1 : ¬(a = "" ∨ pyStrip a = ""))
    (h2 : validate_vat_number b = true) (h3 : validate_datetime c = false) :
    generate_zatca_qr a b c d e = .error .invalidDatetime := by
  simp [generate_zatca_qr, h1, h2, h3]

theorem generate_eval4 (a b c d e : String) (h1 : ¬(a = "" ∨ pyStrip a = ""))
    (h2 : validate_vat_number b = true) (h3 : validate_datetime c = true)
    (h4 : validate_amount d = false) :
    generate_zatca_qr a b c d e = .error .invalidTotalAmount := by
  simp [generate_zatca_qr, h1, h2, h3, h4]

theorem generate_eval5 (a b c d e : String) (h1 : ¬(a = "" ∨ pyStrip a = ""))
    (h2 : validate_vat_number b = true) (h3 : validate_datetime c = true)
    (h4 : validate_amount d = true) (h5 : validate_amount e = false) :
    generate_zatca_qr a b c d e = .error .invalidVatAmount := by
  simp [generate_zatca_qr, h1, h2, h3, h4, h5]

/-- When every field passes validation, the only failures left are the
field-too-large ones from `build_tlv_field`. -/
theorem generate_no_validation_error (a b c d e : String)
    (h1 : ¬(a = "" ∨ pyStrip a = "")) (h2 : validate_vat_number b = true)
    (h3 : validate_datetime c = true) (h4 : validate_amount d = true)
    (h5 : validate_amount e = true) :
    ∀ err, generate_zatca_qr a b c d e = .error err →
      EncodeError.isValidation err = false := by
  intro err h
  simp only [generate_zatca_qr] at h
  rw [if_neg h1, if_neg (by simp [h2]), if_neg (by simp [h3]),
    if_neg (by simp [h4]), if_neg (by simp [h5])] at h
  cases hb1 : build_tlv_field 1 (pyStrip a) with
  | none =>
    rw [buildE, hb1] at h
    simp only [Except.bind, Except.error.injEq] at h
    subst h; rfl
  | some f1 =>
  rw [buildE, hb1] at h
  simp only [Except.bind] at h
  cases hb2 : build_tlv_field 2 (pySubSpaceDash b) with
  | none =>
    rw [buildE, hb2] at h
    simp only [Except.bind, Except.error.injEq] at h
    subst h; rfl
  | some f2 =>
  rw [buildE, hb2] at h
  simp only [Except.bind] at h
  cases hb3 : build_tlv_field 3 c with
  | none =>
    rw [buildE, hb3] at h
    simp only [Except.bind, Except.error.injEq] at h
    subst h; rfl
  | some f3 =>
  rw [buildE, hb3] at h
  simp only [Except.bind] at h
  cases hb4 : build_tlv_field 4 d with
  | none =>
    rw [buildE, hb4] at h
    simp only [Except.bind, Except.error.injEq] at h
    subst h; rfl
  | some f4 =>
  rw [buildE, hb4] at h
  simp only [Except.bind] at h
  cases hb5 : build_tlv_field 5 e with
  | none =>
    rw [buildE, hb5] at h
    simp only [Except.bind, Except.error.injEq] at h
    subst h; rfl
  | some f5 =>
  rw [buildE, hb5] at h
  simp [Except.bind] at h

/-- A validation error pins down, in checking order, which field was the
first invalid one. -/
theorem generate_error_elim (a b c d e : String) (err : EncodeError)
    (h : generate_zatca_qr a b c d e = .error err)
    (hval : EncodeError.isValidation err = true) :
    ((a = "" ∨ pyStrip a = "") ∧ err = .sellerNameRequired)
    ∨ (¬(a = "" ∨ pyStrip a = "") ∧ validate_vat_number b = false
        ∧ err = .invalidVatNumber)
    ∨ (¬(a = "" ∨ pyStrip a = "") ∧ validate_vat_number b = true
        ∧ validate_datetime c = false ∧ err = .invalidDatetime)
    ∨ (¬(a = "" ∨ pyStrip a = "") ∧ validate_vat_number b = true
        ∧ validate_datetime c = true ∧ validate_amount d = false
        ∧ err = .invalidTotalAmount)
    ∨ (¬(a = "" ∨ pyStrip a = "") ∧ validate_vat_number b = true
        ∧ validate_datetime c = true ∧ validate_amount d = true
        ∧ validate_amount e = false ∧ err = .invalidVatAmount) := by
  by_cases h1 : a = "" ∨ pyStrip a = ""
  · left
    refine ⟨h1, ?_⟩
    rw [generate_eval1 a b c d e h1] at h
    simp only [Except.error.injEq] at h
    exact h.symm
  · by_cases h2 : validate_vat_number b = false
    · right; left
      refine ⟨h1, h2, ?_⟩
      rw [generate_eval2 a b c d e h1 h2] at h
      simp only [Except.error.injEq] at h
      exact h.symm
    · have h2' : validate_vat_number b = true := by
        cases hvb : validate_vat_number b
        · exact absurd hvb h2
        · rfl
      by_cases h3 : validate_datetime c = false
      · right; right; left
        refine ⟨h1, h2', h3, ?_⟩
        rw [generate_eval3 a b c d e h1 h2' h3] at h
        simp only [Except.error.injEq] at h
        exact h.symm
      · have h3' : validate_datetime c = true := by
          cases hvb : validate_datetime c
          · exact absurd hvb h3
          · rfl
        by_cases h4 : validate_amount d = false
        · right; right; right; left
          refine ⟨h1, h2', h3', h4, ?_⟩
          rw [generate_eval4 a b c d e h1 h2' h3' h4] at h
          simp only [Except.error.injEq] at h
          exact h.symm
        · have h4' : validate_amount d = true := by
            cases hvb : validate_amount d
            · exact absurd hvb h4
            · rfl
          by_cases h5 : validate_amount e = false
          · right; right; right; right
            refine ⟨h1, h2', h3', h4', h5, ?_⟩
            rw [generate_eval5 a b c d e h1 h2' h3' h4' h5] at h
            simp only [Except.error.injEq] at h
            exact h.symm
          · have h5' : validate_amount e = true := by
              cases hvb : validate_amount e
              · exact absurd hvb h5
              · rfl
            have := generate_no_validation_error a b c d e h1 h2' h3' h4' h5' err h
            rw [hval] at this
            exact absurd this (by simp)

/-! ## Verifier lemmas -/

theorem length_ite_singleton {α : Type} (c : Prop) [Decidable c] (x : α) :
    (if c then [x] else []).length = if c then 1 else 0 := by
  split <;> rfl

/-- The verifier's result when decoding succeeds, with the collected list
spelled out. -/
theorem verify_eq_of_decode (s e1 e2 e3 e4 e5 : String) (d : Dict)
    (hd : decode_zatca_qr s = some d) :
    verify_zatca_qr s e1 e2 e3 e4 e5
      = (((if dictGet d 1 ≠ some (pyStrip e1) then
              [tagMsg 1 "Seller Name" e1 (pyStr (dictGet d 1))] else []) ++
          (if dictGet d 2 ≠ some (pySubSpaceDash e2) then
              [tagMsg 2 "VAT Number" (pySubSpaceDash e2) (pyStr (dictGet d 2))] else []) ++
          (if dictGet d 3 ≠ some e3 then
              [tagMsg 3 "DateTime" e3 (pyStr (dictGet d 3))] else []) ++
          (if dictGet d 4 ≠ some e4 then
              [tagMsg 4 "Total Amount" e4 (pyStr (dictGet d 4))] else []) ++
          (if dictGet d 5 ≠ some e5 then
              [tagMsg 5 "VAT Amount" e5 (pyStr (dictGet d 5))] else []) ++
          (d.filter
              (fun p => !(p.1 == 1 || p.1 == 2 || p.1 == 3 || p.1 == 4 || p.1 == 5))).map
            (fun p => unexpectedTagMsg p.1)).length == 0,
        (if dictGet d 1 ≠ some (pyStrip e1) then
            [tagMsg 1 "Seller Name" e1 (pyStr (dictGet d 1))] else []) ++
        (if dictGet d 2 ≠ some (pySubSpaceDash e2) then
            [tagMsg 2 "VAT Number" (pySubSpaceDash e2) (pyStr (dictGet d 2))] else []) ++
        (if dictGet d 3 ≠ some e3 then
            [tagMsg 3 "DateTime" e3 (pyStr (dictGet d 3))] else []) ++
        (if dictGet d 4 ≠ some e4 then
            [tagMsg 4 "Total Amount" e4 (pyStr (dictGet d 4))] else []) ++
        (if dictGet d 5 ≠ some e5 then
            [tagMsg 5 "VAT Amount" e5 (pyStr (dictGet d 5))] else []) ++
        (d.filter
            (fun p => !(p.1 == 1 || p.1 == 2 || p.1 == 3 || p.1 == 4 || p.1 == 5))).map
          (fun p => unexpectedTagMsg p.1)) := by
  simp only [verify_zatca_qr, hd]

/-! ## Claims -/

/-- C1.  Round-trip: whenever `generate_zatca_qr` succeeds on
`(seller_name, tax_id, timestamp, total, vat)` — i.e. every field passes its
domain rule and every built field fits in 255 UTF-8 bytes — decoding the
produced Base64 string yields exactly the five-entry mapping
`{1: trimmed seller, 2: cleaned tax id, 3: timestamp, 4: total, 5: vat}`,
in that order and with nothing else. -/
theorem claim1_roundtrip (a b c d e s : String)
    (h : generate_zatca_qr a b c d e = .ok s) :
    decode_zatca_qr s
      = some [(1, pyStrip a), (2, pySubSpaceDash b), (3, c), (4, d), (5, e)] :=
  generate_decode a b c d e s h

theorem claim1_roundtrip_witness :
    decode_zatca_qr
        "AQdBY21lIENvAg8zMTQyNjUyNjcyMDAwMDMDEzIwMjQtMDEtMTVUMTA6MzA6NDUEBzEwMDAuNTAFBjE1MC4wOA=="
      = some [(1, "Acme Co"), (2, "314265267200003"), (3, "2024-01-15T10:30:45"),
          (4, "1000.50"), (5, "150.08")] :=
  claim1_roundtrip "Acme Co" "314265267200003" "2024-01-15T10:30:45" "1000.50"
    "150.08" _ rfl

/-- C2.  Verification consistency: whenever `generate_zatca_qr` succeeds,
verifying the produced string against the very inputs it was generated from
returns `is_valid = true` with an empty mismatch list. -/
theorem claim2_verify_consistency (a b c d e s : String)
    (h : generate_zatca_qr a b c d e = .ok s) :
    verify_zatca_qr s a b c d e = (true, []) :=
  generate_verify a b c d e s h

theorem claim2_verify_consistency_witness :
    verify_zatca_qr
        "AQdBY21lIENvAg8zMTQyNjUyNjcyMDAwMDMDEzIwMjQtMDEtMTVUMTA6MzA6NDUEBzEwMDAuNTAFBjE1MC4wOA=="
        "Acme Co" "314265267200003" "2024-01-15T10:30:45" "1000.50" "150.08"
      = (true, []) :=
  claim2_verify_consistency "Acme Co" "314265267200003" "2024-01-15T10:30:45"
    "1000.50" "150.08" _ rfl

/-- C3.  Contrary to the claim (and to the expected results table in the
repository's own `test_zatca_qr.py`), the timestamp validator accepts the
`Z`-suffixed input: the source replaces `Z` with `+00:00` before parsing and
its pattern is not anchored at the end, so `validate_datetime` returns true
on `2024-01-15T10:30:45Z`.  The other boundary examples behave as claimed. -/
theorem claim3_datetime_eval :
    validate_datetime "2024-01-15T10:30:45Z" = true
      ∧ validate_datetime "2024-01-15T10:30:45" = true
      ∧ validate_datetime "2024-01-15" = false
      ∧ validate_datetime "2024-01-15T10:30" = false
      ∧ validate_datetime "24-01-15T10:30:45" = false := by
  refine ⟨?_, ?_, ?_, ?_, ?_⟩ <;> rfl

/-- C4.  Contrary to the claim (and to the expected results table in the
repository's own `test_zatca_qr.py`), the amount validator accepts `1000.5`
(and `1000.501`): its tolerance disjunct compares `float(amount)` with
itself, so every parseable number passes regardless of its decimal places. -/
theorem claim4_amount_eval :
    validate_amount "1000.5" = true
      ∧ validate_amount "1000.50" = true
      ∧ validate_amount "1000.501" = true
      ∧ validate_amount "1000.00" = true
      ∧ validate_amount "0.01" = true
      ∧ validate_amount "abc" = false
      ∧ validate_amount "" = false := by
  refine ⟨?_, ?_, ?_, ?_, ?_, ?_, ?_⟩ <;> rfl

/-- C5 (counterexample).  The decoder does not return all tag/value pairs it
parses: the buffer `01 01 41 01 01 42` (Base64 `AQFBAQFC`) parses into the
two pairs `(1, "A")`, `(1, "B")`, but the returned dictionary has collapsed
the duplicate tag to its last value, losing `(1, "A")`. -/
theorem claim5_counterexample :
    b64DecodeStr "AQFBAQFC" = some [1, 1, 65, 1, 1, 66]
      ∧ tlvPairs [1, 1, 65, 1, 1, 66] = some [(1, "A"), (1, "B")]
      ∧ decode_zatca_qr "AQFBAQFC" = some [(1, "B")] := by
  refine ⟨?_, ?_, ?_⟩ <;> rfl

/-- C5 (amended).  The decoder is the Base64 decode followed by the TLV walk:
it fails exactly when Base64 decoding fails or the byte buffer is not a
well-formed TLV stream (truncated header, truncated value, or value bytes
that are not valid UTF-8) — equivalently, the walk succeeds with pairs `ps`
iff the buffer is exactly the TLV encoding of `ps`, with no constraint on tag
numbers, duplicate tags, or field domains; the returned mapping is those
pairs collapsed into a dictionary, a duplicated tag keeping only its last
value. -/
theorem claim5_decode_semantics :
    (∀ s : String, decode_zatca_qr s
        = (b64DecodeStr s).bind fun bs => (tlvPairs bs).map dictOfPairs)
      ∧ ∀ (bs : List Nat) (ps : List (Nat × String)),
          tlvPairs bs = some ps ↔ bs = encodeFields ps :=
  ⟨decode_eq_pairs, tlvPairs_iff⟩

/-- C8.  The TLV field builder fails exactly when the value's UTF-8 byte
length exceeds 255, and otherwise returns exactly
`[tag] ++ [length] ++ value_bytes`, of total size `2 + length`. -/
theorem claim8_build_tlv (tag : Nat) (value : String) :
    (build_tlv_field tag value = none ↔ 255 < (utf8Encode value).length)
      ∧ ∀ bs, build_tlv_field tag value = some bs →
          bs = tag :: (utf8Encode value).length :: utf8Encode value
            ∧ bs.length = 2 + (utf8Encode value).length := by
  constructor
  · simp only [build_tlv_field]
    by_cases hl : (utf8Encode value).length > 255
    · rw [if_pos hl]
      simp
      omega
    · rw [if_neg hl]
      simp
      omega
  · intro bs h
    obtain ⟨_, rfl⟩ := (build_tlv_field_eq_some _ _ _).mp h
    exact ⟨rfl, by simp; omega⟩

theorem claim8_build_tlv_witness :
    build_tlv_field 1 "A" = some [1, 1, 65]
      ∧ ([1, 1, 65] : List Nat).length = 2 + (utf8Encode "A").length :=
  ⟨rfl, ((claim8_build_tlv 1 "A").2 [1, 1, 65] rfl).2⟩

/-- C9 (counterexample).  The identifier validator does not demand ASCII
digits: fifteen Arabic-Indic digits pass `str.isdigit` and are accepted,
while every one of them fails the ASCII-digit test. -/
theorem claim9_counterexample :
    validate_vat_number "٠١٢٣٤٥٦٧٨٩٠١٢٣٤" = true
      ∧ (pySubSpaceDash "٠١٢٣٤٥٦٧٨٩٠١٢٣٤").data.all isAsciiDigit = false := by
  refine ⟨?_, ?_⟩ <;> rfl

/-- C9 (amended).  After removing whitespace and hyphens, the validator
accepts exactly the strings of fifteen decimal-digit characters in Python's
`str.isdigit` sense — which includes non-ASCII digits, not only ASCII ones;
the claim's example inputs behave as stated, and the two spellings of the
identifier build the identical tag-2 TLV field. -/
theorem claim9_identifier :
    (∀ s : String, validate_vat_number s = true
        ↔ ((∀ ch ∈ (pySubSpaceDash s).data, pyDigitChar ch = true)
            ∧ (pySubSpaceDash s).data.length = 15))
      ∧ validate_vat_number "314-265-267-200-003" = true
      ∧ validate_vat_number "314265267200003" = true
      ∧ build_tlv_field 2 (pySubSpaceDash "314-265-267-200-003")
          = build_tlv_field 2 (pySubSpaceDash "314265267200003")
      ∧ validate_vat_number "31426526720000" = false := by
  refine ⟨?_, rfl, rfl, rfl, rfl⟩
  intro s
  unfold validate_vat_number
  by_cases hs : s = ""
  · rw [if_pos hs]
    subst hs
    constructor
    · intro h
      exact absurd h (by simp)
    · intro ⟨_, hlen⟩
      exact absurd hlen (by simp [pySubSpaceDash])
  · rw [if_neg hs]
    simp only [pyIsdigit, Bool.and_eq_true, List.all_eq_true, beq_iff_eq]
    constructor
    · rintro ⟨⟨_, hall⟩, hlen⟩
      exact ⟨hall, hlen⟩
    · rintro ⟨hall, hlen⟩
      refine ⟨⟨?_, hall⟩, hlen⟩
      have hne : (pySubSpaceDash s).data ≠ [] := by
        intro hemp
        rw [hemp] at hlen
        exact absurd hlen (by simp)
      simp [List.isEmpty_eq_false, hne]

/-- C10.  Decoding the empty string succeeds with an empty mapping: Base64
decoding yields the empty buffer and the TLV walk accepts zero fields — the
five-fields invariant is not checked at the decode boundary. -/
theorem claim10_empty_decode : decode_zatca_qr "" = some ([] : Dict) := rfl

/-- C7.  The encoder's validation failures follow the fixed checking order
seller name → identifier → timestamp → total → vat: each of the five errors
is raised exactly when its field is the first invalid one (the statements
about field `i` do not depend on the validity of any later field, so later
validators are never consulted), a raised validation error always identifies
the first invalid field in that order, and when all five fields are valid no
validation error is raised (only a `fieldTooLarge` failure can remain). -/
theorem claim7_first_invalid (a b c d e : String) :
    ((a = "" ∨ pyStrip a = "") →
        generate_zatca_qr a b c d e = .error .sellerNameRequired)
    ∧ (¬(a = "" ∨ pyStrip a = "") → validate_vat_number b = false →
        generate_zatca_qr a b c d e = .error .invalidVatNumber)
    ∧ (¬(a = "" ∨ pyStrip a = "") → validate_vat_number b = true →
        validate_datetime c = false →
        generate_zatca_qr a b c d e = .error .invalidDatetime)
    ∧ (¬(a = "" ∨ pyStrip a = "") → validate_vat_number b = true →
        validate_datetime c = true → validate_amount d = false →
        generate_zatca_qr a b c d e = .error .invalidTotalAmount)
    ∧ (¬(a = "" ∨ pyStrip a = "") → validate_vat_number b = true →
        validate_datetime c = true → validate_amount d = true →
        validate_amount e = false →
        generate_zatca_qr a b c d e = .error .invalidVatAmount)
    ∧ (∀ err, generate_zatca_qr a b c d e = .error err →
        EncodeError.isValidation err = true →
          ((a = "" ∨ pyStrip a = "") ∧ err = .sellerNameRequired)
          ∨ (¬(a = "" ∨ pyStrip a = "") ∧ validate_vat_number b = false
              ∧ err = .invalidVatNumber)
          ∨ (¬(a = "" ∨ pyStrip a = "") ∧ validate_vat_number b = true
              ∧ validate_datetime c = false ∧ err = .invalidDatetime)
          ∨ (¬(a = "" ∨ pyStrip a = "") ∧ validate_vat_number b = true
              ∧ validate_datetime c = true ∧ validate_amount d = false
              ∧ err = .invalidTotalAmount)
          ∨ (¬(a = "" ∨ pyStrip a = "") ∧ validate_vat_number b = true
              ∧ validate_datetime c = true ∧ validate_amount d = true
              ∧ validate_amount e = false ∧ err = .invalidVatAmount))
    ∧ (¬(a = "" ∨ pyStrip a = "") → validate_vat_number b = true →
        validate_datetime c = true → validate_amount d = true →
        validate_amount e = true →
        ∀ err, generate_zatca_qr a b c d e = .error err →
          EncodeError.isValidation err = false) :=
  ⟨generate_eval1 a b c d e,
   generate_eval2 a b c d e,
   generate_eval3 a b c d e,
   generate_eval4 a b c d e,
   generate_eval5 a b c d e,
   fun err h hval => generate_error_elim a b c d e err h hval,
   fun h1 h2 h3 h4 h5 => generate_no_validation_error a b c d e h1 h2 h3 h4 h5⟩

theorem claim7_first_invalid_witness :
    generate_zatca_qr "Acme Co" "12" "bad" "bad" "bad"
      = .error .invalidVatNumber :=
  (claim7_first_invalid "Acme Co" "12" "bad" "bad" "bad").2.1
    (by rintro (h | h) <;> exact absurd h (by decide)) rfl

/-- C6.  For every input the verifier returns a `(Bool, List String)` pair
(raising nothing; it is a total function): when decoding fails it returns
`false` with exactly the one entry describing the decode failure; when
decoding succeeds, `is_valid` is true iff the mismatch list is empty, the
list's length is the number of failing field comparisons plus the number of
decoded tags outside 1..5 (so no comparison short-circuits an earlier one),
each failing field comparison contributes its entry naming the tag, the
expected and the actual value, and every decoded tag outside 1..5
contributes its entry. -/
theorem claim6_verifier (s e1 e2 e3 e4 e5 : String) :
    (decode_zatca_qr s = none →
        verify_zatca_qr s e1 e2 e3 e4 e5 = (false, [decodeErrorMsg]))
    ∧ ∀ d, decode_zatca_qr s = some d →
        ((verify_zatca_qr s e1 e2 e3 e4 e5).1 = true
            ↔ (verify_zatca_qr s e1 e2 e3 e4 e5).2 = [])
        ∧ (verify_zatca_qr s e1 e2 e3 e4 e5).2.length
            = ((if dictGet d 1 ≠ some (pyStrip e1) then 1 else 0)
              + (if dictGet d 2 ≠ some (pySubSpaceDash e2) then 1 else 0)
              + (if dictGet d 3 ≠ some e3 then 1 else 0)
              + (if dictGet d 4 ≠ some e4 then 1 else 0)
              + (if dictGet d 5 ≠ some e5 then 1 else 0)
              + (d.filter (fun p =>
                  !(p.1 == 1 || p.1 == 2 || p.1 == 3 || p.1 == 4 || p.1 == 5))).length)
        ∧ (dictGet d 1 ≠ some (pyStrip e1) →
            tagMsg 1 "Seller Name" e1 (pyStr (dictGet d 1))
              ∈ (verify_zatca_qr s e1 e2 e3 e4 e5).2)
        ∧ (dictGet d 2 ≠ some (pySubSpaceDash e2) →
            tagMsg 2 "VAT Number" (pySubSpaceDash e2) (pyStr (dictGet d 2))
              ∈ (verify_zatca_qr s e1 e2 e3 e4 e5).2)
        ∧ (dictGet d 3 ≠ some e3 →
            tagMsg 3 "DateTime" e3 (pyStr (dictGet d 3))
              ∈ (verify_zatca_qr s e1 e2 e3 e4 e5).2)
        ∧ (dictGet d 4 ≠ some e4 →
            tagMsg 4 "Total Amount" e4 (pyStr (dictGet d 4))
              ∈ (verify_zatca_qr s e1 e2 e3 e4 e5).2)
        ∧ (dictGet d 5 ≠ some e5 →
            tagMsg 5 "VAT Amount" e5 (pyStr (dictGet d 5))
              ∈ (verify_zatca_qr s e1 e2 e3 e4 e5).2)
        ∧ (∀ p ∈ d, p.1 ∉ ([1, 2, 3, 4, 5] : List Nat) →
            unexpectedTagMsg p.1 ∈ (verify_zatca_qr s e1 e2 e3 e4 e5).2) := by
  constructor
  · intro hd
    simp only [verify_zatca_qr, hd]
  · intro d hd
    rw [verify_eq_of_decode s e1 e2 e3 e4 e5 d hd]
    refine ⟨?_, ?_, ?_, ?_, ?_, ?_, ?_, ?_⟩
    · simp [List.length_eq_zero]
    · simp only [List.length_append, length_ite_singleton, List.length_map]
    · intro hm
      rw [if_pos hm]
      simp [List.mem_append]
    · intro hm
      rw [if_pos hm]
      simp [List.mem_append]
    · intro hm
      rw [if_pos hm]
      simp [List.mem_append]
    · intro hm
      rw [if_pos hm]
      simp [List.mem_append]
    · intro hm
      rw [if_pos hm]
      simp [List.mem_append]
    · intro p hp hne
      simp only [List.mem_append]
      right
      rw [List.mem_map]
      refine ⟨p, ?_, rfl⟩
      rw [List.mem_filter]
      refine ⟨hp, ?_⟩
      simp only [List.mem_cons, List.not_mem_nil, or_false, not_or] at hne
      obtain ⟨n1, n2, n3, n4, n5⟩ := hne
      simp [n1, n2, n3, n4, n5]

theorem claim6_verifier_witness :
    verify_zatca_qr "AQ==" "A" "B" "C" "D" "E" = (false, [decodeErrorMsg])
      ∧ unexpectedTagMsg 6 ∈ (verify_zatca_qr "BgFY" "A" "B" "C" "D" "E").2 :=
  ⟨(claim6_verifier "AQ==" "A" "B" "C" "D" "E").1 rfl,
   ((claim6_verifier "BgFY" "A" "B" "C" "D" "E").2 [(6, "X")] rfl).2.2.2.2.2.2.2
     (6, "X") (by simp) (by simp)⟩

end Zatca
